import Mathlib

/-!
Tracker-Desktop: shallow embedding and verification.

This file embeds the protocol- and state-machine-level parts of the
Tracker-Desktop repository in Lean 4 and proves (or refutes) the frozen
claims about them:

* the length-prefixed frame codec of `src/native-host/native-host.js`
  (`sendMessage` and the stdin `readable` handler);
* the error-reply synthesis of the native host's `handleMessage`;
* the relay server `NativeMessagingServer` of
  `src/electron/src/main/native-messaging.ts` (connect / activity_batch /
  heartbeat dispatch, session state, connection-liveness timer);
* the window-focus tracker `DesktopActivityTracker` of the same file
  (poll step, idle accounting, flush);
* the backend supervisor `PythonBridge` of
  `src/electron/src/main/python-bridge.ts` (exit handler, bounded restart,
  startup timeout).

Machine integers are modelled as `Nat` (times in milliseconds, bytes as
`Nat` values below 256); JavaScript strings are modelled as `List Char`
where the distinction between UTF-16 units and UTF-8 bytes matters, and as
`String` elsewhere.
-/

namespace TrackerDesktop

/-! ## Frame codec (src/native-host/native-host.js)

`sendMessage` allocates `Buffer.alloc(4 + json.length)` where
`json.length` is the number of UTF-16 code units of the JSON string, writes
that same number as a 32-bit little-endian prefix, and then
`buffer.write(json, 4)` writes the UTF-8 encoding of the string into the
remaining space, stopping before any character that no longer fits
(`Buffer.write` never writes a partially encoded character); unwritten
bytes keep the zero fill of `Buffer.alloc`. -/

/-- UTF-8 encoding of one character, as a list of byte values. -/
def utf8EncodeCharBytes (c : Char) : List Nat :=
  let n := c.toNat
  if n < 128 then [n]
  else if n < 2048 then [192 + n / 64, 128 + n % 64]
  else if n < 65536 then [224 + n / 4096, 128 + n / 64 % 64, 128 + n % 64]
  else [240 + n / 262144, 128 + n / 4096 % 64, 128 + n / 64 % 64, 128 + n % 64]

/-- UTF-8 encoding of a string (as a character list). -/
def strUtf8 (s : List Char) : List Nat :=
  (s.map utf8EncodeCharBytes).flatten

/-- Number of UTF-16 code units used by one character (JavaScript
`String.prototype.length` counts code units, not bytes). -/
def utf16Units (c : Char) : Nat :=
  if c.toNat < 65536 then 1 else 2

/-- JavaScript `string.length`: total number of UTF-16 code units. -/
def strUtf16Len (s : List Char) : Nat :=
  (s.map utf16Units).sum

/-- The four bytes of `buffer.writeUInt32LE n 0`. -/
def le32 (n : Nat) : List Nat :=
  [n % 256, n / 256 % 256, n / 65536 % 256, n / 16777216 % 256]

/-- `buffer.readUInt32LE(0)`: read the first four bytes little-endian
(the callers guard `length >= 4`; on shorter lists we return 0). -/
def readLE32 : List Nat → Nat
  | b0 :: b1 :: b2 :: b3 :: _ => b0 + 256 * b1 + 65536 * b2 + 16777216 * b3
  | _ => 0

/-- `Buffer.write(s, offset)` into `cap` remaining bytes: writes whole
characters while they fit; the rest of the buffer keeps its zero fill. -/
def bufWrite : List Char → Nat → List Nat
  | [], cap => List.replicate cap 0
  | c :: rest, cap =>
    let bs := utf8EncodeCharBytes c
    if bs.length ≤ cap then bs ++ bufWrite rest (cap - bs.length)
    else List.replicate cap 0

/-- The bytes `sendMessage` writes to stdout for a message whose JSON
serialization is `json`: a 4-byte little-endian prefix holding
`json.length` (UTF-16 code units!) followed by `json.length` bytes of
buffer into which the UTF-8 text was written. -/
def sendMessageBytes (json : List Char) : List Nat :=
  le32 (strUtf16Len json) ++ bufWrite json (strUtf16Len json)

/-- One pass of the stdin `readable` drain loop, fuelled for structural
recursion (each iteration consumes at least 4 bytes, so `buf.length` fuel
always suffices): while a complete frame `4 + len` is buffered, slice out
its payload and continue on the remaining bytes. -/
def drainAux : Nat → List Nat → List Nat × List (List Nat)
  | 0, buf => (buf, [])
  | fuel + 1, buf =>
    if 4 + readLE32 buf ≤ buf.length then
      ((drainAux fuel (buf.drop (4 + readLE32 buf))).1,
       (buf.drop 4).take (readLE32 buf) :: (drainAux fuel (buf.drop (4 + readLE32 buf))).2)
    else (buf, [])

/-- Drain all complete frames from a buffer, returning the leftover
partial bytes and the extracted payloads in arrival order. -/
def decodeBuf (buf : List Nat) : List Nat × List (List Nat) :=
  drainAux buf.length buf

/-- Feeding one chunk: `inputBuffer = Buffer.concat([inputBuffer, chunk])`
followed by the drain loop; surfaced payloads accumulate in order. -/
def feedChunk (st : List Nat × List (List Nat)) (chunk : List Nat) :
    List Nat × List (List Nat) :=
  ((decodeBuf (st.1 ++ chunk)).1, st.2 ++ (decodeBuf (st.1 ++ chunk)).2)

/-- Feed a whole sequence of chunks starting from an empty buffer. -/
def feedAll (chunks : List (List Nat)) : List Nat × List (List Nat) :=
  chunks.foldl feedChunk ([], [])

/-- A well-formed frame for payload `p`: 4-byte little-endian length
prefix holding the exact byte count of the payload that follows. -/
def encFrame (p : List Nat) : List Nat :=
  le32 p.length ++ p

/-- Number of leading frames of `frames` whose encodings fit completely in
`l` buffered bytes. -/
def fitCount : List (List Nat) → Nat → Nat
  | [], _ => 0
  | f :: fs, l => if 4 + f.length ≤ l then fitCount fs (l - (4 + f.length)) + 1 else 0

/-- Total encoded size of a list of frames. -/
def encLenSum (frames : List (List Nat)) : Nat :=
  (frames.map (fun f => 4 + f.length)).sum

/-- Length prefix equals the exact byte count of what follows it. -/
def frameWellFormed (bytes : List Nat) : Prop :=
  4 ≤ bytes.length ∧ readLE32 bytes = bytes.length - 4

/-- All characters are ASCII (one UTF-8 byte, one UTF-16 unit each). -/
def allAsciiB (s : List Char) : Bool :=
  s.all (fun c => c.toNat < 128)

/-- The concrete JSON text of the C1 failing input: a message whose JSON
serialization is `\x7b"t":"é"\x7d` — 9 UTF-16 code units but 10 UTF-8
bytes, since `é` (U+00E9) encodes as two bytes. -/
def c1Json : List Char :=
  ['{', '"', 't', '"', ':', '"', 'é', '"', '}']

/-! ## Native host `handleMessage` (src/native-host/native-host.js)

On a successful forward the HTTP reply is sent back verbatim; on a failed
forward (unreachable relay or 5s timeout) a single kind-specific error
reply is synthesized and sent instead. -/

/-- One reply written back to the extension via `sendMessage`. -/
inductive HostSent where
  | forwarded (resp : String)
  | errorReply (text : String)
deriving DecidableEq

/-- The error wording chosen by the native host's catch branch, by the
inbound message's `type` field (`none` models a missing field). -/
def hostErrorText (msgType : Option String) (errMsg : String) : String :=
  match msgType with
  | some "connect" => "Desktop app not running. Please start the Focus App."
  | some "activity_batch" => "Failed to process activity batch"
  | some "heartbeat" => "Desktop app not responding"
  | _ => errMsg

/-- `handleMessage`: forward to the relay server; send the reply on
success, or a single synthesized kind-specific error reply on failure.
No retry happens in either case. -/
def hostHandleMessage (msgType : Option String) (forward : Except String String) :
    List HostSent :=
  match forward with
  | .ok resp => [.forwarded resp]
  | .error e => [.errorReply (hostErrorText msgType e)]

/-- Hex digit used by the JSON `\u00XX` escape for control characters. -/
def hexDigit (n : Nat) : Char :=
  if n < 10 then Char.ofNat (48 + n) else Char.ofNat (87 + n)

/-- `JSON.stringify` escaping of one character inside a string literal. -/
def jsonEscapeChar (c : Char) : List Char :=
  if c = '"' then ['\\', '"']
  else if c = '\\' then ['\\', '\\']
  else if 32 ≤ c.toNat then [c]
  else if c.toNat = 8 then ['\\', 'b']
  else if c.toNat = 9 then ['\\', 't']
  else if c.toNat = 10 then ['\\', 'n']
  else if c.toNat = 12 then ['\\', 'f']
  else if c.toNat = 13 then ['\\', 'r']
  else ['\\', 'u', '0', '0', hexDigit (c.toNat / 16), hexDigit (c.toNat % 16)]

/-- `JSON.stringify` of a string value: quoted, escaped. -/
def jsonStringChars (s : List Char) : List Char :=
  '"' :: (s.map jsonEscapeChar).flatten ++ ['"']

/-- `JSON.stringify(\x7b type: 'error', error: text \x7d)`: object with the
`type` key first, then `error`, insertion order preserved. -/
def errorReplyJsonStr (text : List Char) : List Char :=
  "\x7b\"type\":\"error\",\"error\":".toList ++ jsonStringChars text ++ "\x7d".toList

/-! ## Relay server (src/electron/src/main/native-messaging.ts)

`NativeMessagingServer` holds the current session, the
`extensionConnected` flag and a one-shot 120 000 ms liveness timer.  The
backend (created sessions, batch submission results) is the Python process
behind `PythonBridge.request`, modelled as data supplied per message. -/

/-- `SessionInfo` as stored by `handleConnect` (only `sessionId` is ever
set by the code). -/
structure SessionInfo where
  sessionId : String
deriving DecidableEq

/-- One element of an `activity_batch`'s `events` array: opaque payload
plus the `sessionId` field that the server overwrites by spreading. -/
structure RawEvent where
  payload : String
  sessionId : Option String
deriving DecidableEq

/-- The uniform `\x7b success, data?, error? \x7d` envelope returned by
`PythonBridge.request`. -/
structure ApiResponse (α : Type) where
  success : Bool
  data : Option α
  error : Option String

/-- Backend behaviour visible to one handled message: the result of
`createSession` and the result of `submitActivityBatch` as a function of
the forwarded batch. -/
structure Backend where
  createSessionRes : ApiResponse String
  submitRes : List RawEvent → ApiResponse (List String)

/-- An inbound message after `JSON.parse`, by its `type` discriminator.
For `activity_batch`, `none` models an absent / non-array `events`. -/
inductive ExtMessage where
  | connect
  | activityBatch (events : Option (List RawEvent))
  | heartbeat
  | other (t : String)

/-- The JSON reply produced by the dispatch. -/
inductive ServerReply where
  | session (sessionId : String) (status : String)
  | ack (receivedEventIds : List String)
  | heartbeatAck (timestamp : Nat) (sessionId : Option String)
  | error (msg : String)
deriving DecidableEq

/-- Events emitted on the server's `EventEmitter`. -/
inductive ServerEvent where
  | extensionConnectedEvt
  | extensionDisconnectedEvt
  | sessionCreatedEvt (sid : String)
  | eventsReceivedEvt (n : Nat)
deriving DecidableEq

/-- Mutable state of `NativeMessagingServer`.  `timerDeadline` models the
armed one-shot `connectionTimeout`: `some d` means the pending
`setTimeout` fires at absolute time `d`, `none` means no timer pending. -/
structure ServerState where
  currentSession : Option SessionInfo
  lastHeartbeat : Nat
  extensionConnected : Bool
  timerDeadline : Option Nat
deriving DecidableEq

/-- JavaScript `a || d` on an optional string: the default is taken both
when the value is absent and when it is the falsy empty string. -/
def jsOrElse (o : Option String) (d : String) : String :=
  match o with
  | some s => if s = "" then d else s
  | none => d

/-- JavaScript `a || null` on an optional string. -/
def jsOrNull (o : Option String) : Option String :=
  match o with
  | some s => if s = "" then none else some s
  | none => none

/-- Result of handling one message: new state, reply, emitted events and
the batch forwarded to the backend, if any. -/
structure HandleResult where
  state : ServerState
  reply : ServerReply
  events : List ServerEvent := []
  forwardedBatch : Option (List RawEvent) := none
deriving DecidableEq

/-- `resetConnectionTimeout`: clear any pending timer and arm a fresh
one-shot 120 000 ms timer. -/
def resetConnectionTimeout (st : ServerState) (now : Nat) : ServerState :=
  { st with timerDeadline := some (now + 120000) }

/-- `handleConnect`: on a successful backend session creation store the
new session, mark connected (emitting the transition event only on a
false-to-true edge), emit `sessionCreated` and reply `session/active`;
otherwise reply `error` with no state transition. -/
def handleConnect (st : ServerState) (res : ApiResponse String) : HandleResult :=
  match res.success, res.data with
  | true, some sid =>
    let st1 := { st with currentSession := some { sessionId := sid } }
    if st1.extensionConnected then
      { state := st1, reply := .session sid "active",
        events := [.sessionCreatedEvt sid] }
    else
      { state := { st1 with extensionConnected := true },
        reply := .session sid "active",
        events := [.extensionConnectedEvt, .sessionCreatedEvt sid] }
  | _, _ =>
    { state := st, reply := .error (jsOrElse res.error "Failed to create session") }

/-- The spread `\x7b ...event, sessionId: currentSession?.sessionId || null \x7d`
applied to every event of the batch. -/
def stampEvents (cur : Option SessionInfo) (evs : List RawEvent) : List RawEvent :=
  evs.map (fun e => { e with sessionId := jsOrNull (cur.map SessionInfo.sessionId) })

/-- `handleActivityBatch`: empty or non-array batches are acked with an
empty id list and nothing is forwarded; otherwise every event is stamped
with the current session id (or null), the stamped batch is forwarded, and
the reply carries the backend's assigned ids on success or an error
otherwise. -/
def handleActivityBatch (st : ServerState) (events : Option (List RawEvent))
    (submit : List RawEvent → ApiResponse (List String)) : HandleResult :=
  match events with
  | none => { state := st, reply := .ack [] }
  | some [] => { state := st, reply := .ack [] }
  | some evs =>
    let stamped := stampEvents st.currentSession evs
    let res := submit stamped
    match res.success, res.data with
    | true, some ids =>
      { state := st, reply := .ack ids,
        events := [.eventsReceivedEvt ids.length],
        forwardedBatch := some stamped }
    | _, _ =>
      { state := st,
        reply := .error (jsOrElse res.error "Failed to process activity batch"),
        forwardedBatch := some stamped }

/-- `handleHeartbeat`: record `lastHeartbeat` and reply with an ack
carrying the timestamp and the existing session id (absent if none). -/
def handleHeartbeat (st : ServerState) (now : Nat) : HandleResult :=
  { state := { st with lastHeartbeat := now },
    reply := .heartbeatAck now (st.currentSession.map SessionInfo.sessionId) }

/-- `handleMessage`: reset the liveness timer first, then dispatch on the
discriminator; unknown kinds get an error reply. -/
def serverHandleMessage (st : ServerState) (now : Nat) (msg : ExtMessage)
    (b : Backend) : HandleResult :=
  let st0 := resetConnectionTimeout st now
  match msg with
  | .connect => handleConnect st0 b.createSessionRes
  | .activityBatch evs => handleActivityBatch st0 evs b.submitRes
  | .heartbeat => handleHeartbeat st0 now
  | .other t => { state := st0, reply := .error ("Unknown message type: " ++ t) }

/-- The body of the armed `setTimeout`: fire once, disarming the timer;
flip `extensionConnected` and emit the disconnection event only if the
flag was true. -/
def connectionTimerFire (st : ServerState) : ServerState × List ServerEvent :=
  if st.extensionConnected then
    ({ st with extensionConnected := false, timerDeadline := none },
     [.extensionDisconnectedEvt])
  else
    ({ st with timerDeadline := none }, [])

/-- One scheduled occurrence on the event loop: either a message handled
at time `t`, or the moment `t` at which an armed timer would fire. -/
inductive ServerInput where
  | message (t : Nat) (m : ExtMessage) (b : Backend)
  | timerAt (t : Nat)

/-- Run the server over a chronological list of inputs.  A `timerAt t`
input fires only if the currently armed timer's deadline is exactly `t`;
a stale timer occurrence (one that `clearTimeout` cancelled, i.e. whose
time differs from the pending deadline) is a no-op. -/
def runServer (st : ServerState) : List ServerInput → ServerState × List ServerEvent
  | [] => (st, [])
  | .message t m b :: rest =>
    let r := serverHandleMessage st t m b
    let k := runServer r.state rest
    (k.1, r.events ++ k.2)
  | .timerAt t :: rest =>
    if st.timerDeadline = some t then
      let f := connectionTimerFire st
      let k := runServer f.1 rest
      (k.1, f.2 ++ k.2)
    else runServer st rest

/-- `keepsAliveB d inputs`: every timer occurrence in `inputs` is strictly
earlier than the deadline pending at that point — i.e. a fresh message
always re-armed the timer before it could fire (messages arrive within
the 120 s window). -/
def keepsAliveB : Nat → List ServerInput → Bool
  | _, [] => true
  | _, .message t _ _ :: rest => keepsAliveB (t + 120000) rest
  | d, .timerAt t :: rest => decide (t < d) && keepsAliveB d rest

/-! ## Window focus tracker (src/electron/src/main/native-messaging.ts,
`DesktopActivityTracker`, the idle-aware variant)

Times are absolute milliseconds.  `pollStep` is one tick of `poll()` with
the queried system idle seconds and focused window supplied as inputs;
`flushCurrentWindow` finalizes the tracked interval. -/

/-- The fields of an `active-win` result used by the tracker. -/
structure WindowInfo where
  title : String
  id : Nat
  ownerName : String
  ownerProcessId : Nat
  ownerPath : String
deriving DecidableEq

/-- `BROWSER_APPS`: focus on these is the extension's responsibility. -/
def browserApps : List String :=
  ["chrome", "google chrome", "firefox", "mozilla firefox", "edge", "msedge",
   "microsoft edge", "brave", "brave browser", "opera", "safari", "vivaldi",
   "arc", "chromium"]

/-- JavaScript whitespace trimmed by `String.prototype.trim`. -/
def isJsSpace (c : Char) : Bool :=
  c = ' ' ∨ c = '\t' ∨ c = '\n' ∨ c = '\r' ∨ c.toNat = 11 ∨ c.toNat = 12

/-- `appName.toLowerCase().replace(/\.exe$/i, '').trim()` over the
character list. -/
def normalizeAppName (s : List Char) : List Char :=
  let lower := s.map Char.toLower
  let stripped :=
    if 4 ≤ lower.length ∧ lower.drop (lower.length - 4) = ['.', 'e', 'x', 'e'] then
      lower.take (lower.length - 4)
    else lower
  ((stripped.dropWhile isJsSpace).reverse.dropWhile isJsSpace).reverse

/-- `isBrowserApp`: lowercase, strip a trailing `.exe`, trim, then test
membership in the browser set. -/
def isBrowserApp (appName : String) : Bool :=
  browserApps.any (fun b => b.toList = normalizeAppName appName.toList)

/-- Mutable tracker state: current window, its start time, the session id,
and the idle-accounting fields. -/
structure TrackerState where
  currentWindow : Option WindowInfo
  windowStartTime : Option Nat
  currentSessionId : Option String
  isUserIdle : Bool
  idleStartTime : Option Nat
  accumulatedIdleTime : Nat
deriving DecidableEq

/-- The timing-relevant fields of the emitted `DesktopActivityEvent`. -/
structure TrackerEvent where
  sessionId : Option String
  appName : String
  startTime : Nat
  endTime : Nat
  activeTime : Nat
  idleTime : Nat
  windowId : Nat
  title : String
deriving DecidableEq

/-- `flushCurrentWindow` at time `now`: below the 1 000 ms minimum nothing
is emitted; otherwise idle = accumulated idle plus the ongoing idle span
(if currently idle), and active = max(0, elapsed − idle) — which is
exactly truncated `Nat` subtraction. -/
def flushCurrentWindow (st : TrackerState) (now : Nat) : Option TrackerEvent :=
  match st.currentWindow, st.windowStartTime with
  | some w, some start =>
    let totalDuration := now - start
    if totalDuration < 1000 then none
    else
      let ongoing : Nat :=
        match st.isUserIdle, st.idleStartTime with
        | true, some i => now - i
        | _, _ => 0
      let totalIdleTime := st.accumulatedIdleTime + ongoing
      some { sessionId := st.currentSessionId
             appName := w.ownerName
             startTime := start
             endTime := now
             activeTime := totalDuration - totalIdleTime
             idleTime := totalIdleTime
             windowId := w.id
             title := w.title }
  | _, _ => none

/-- `resetIdleTracking` (does not touch `isUserIdle`). -/
def resetIdleTracking (st : TrackerState) : TrackerState :=
  { st with accumulatedIdleTime := 0, idleStartTime := none }

/-- One `poll()` tick at time `now`, given the system idle seconds and the
currently focused window (`none` models a locked screen).  Returns the new
state and the activity events flushed during this tick. -/
def pollStep (st : TrackerState) (now : Nat) (idleSecs : Nat)
    (win : Option WindowInfo) : TrackerState × List TrackerEvent :=
  let wasIdle := st.isUserIdle
  let nowIdle := 60 ≤ idleSecs
  let st1 : TrackerState :=
    if nowIdle ∧ ¬wasIdle then
      { st with isUserIdle := true, idleStartTime := some now }
    else if ¬nowIdle ∧ wasIdle then
      { st with isUserIdle := false,
                accumulatedIdleTime :=
                  st.accumulatedIdleTime +
                    (match st.idleStartTime with
                     | some i => now - i
                     | none => 0),
                idleStartTime := none }
    else { st with isUserIdle := nowIdle }
  match win with
  | none =>
    match st1.currentWindow with
    | some _ =>
      let ev := flushCurrentWindow st1 now
      (resetIdleTracking { st1 with currentWindow := none, windowStartTime := none },
       ev.toList)
    | none => (st1, [])
  | some w =>
    if isBrowserApp w.ownerName then
      match st1.currentWindow, st1.windowStartTime with
      | some _, some _ =>
        let ev := flushCurrentWindow st1 now
        (resetIdleTracking { st1 with currentWindow := none, windowStartTime := none },
         ev.toList)
      | _, _ => (st1, [])
    else
      let changed :=
        match st1.currentWindow with
        | none => true
        | some cw => cw.id ≠ w.id ∨ cw.ownerProcessId ≠ w.ownerProcessId
      if changed then
        let ev :=
          match st1.currentWindow, st1.windowStartTime with
          | some _, some _ => (flushCurrentWindow st1 now).toList
          | _, _ => []
        (resetIdleTracking { st1 with currentWindow := some w, windowStartTime := some now },
         ev)
      else
        match st1.currentWindow with
        | some cw =>
          if cw.title ≠ w.title then
            ({ st1 with currentWindow := some { cw with title := w.title } }, [])
          else (st1, [])
        | none => (st1, [])

/-- The window of the C2 scenario (a non-browser application "App A"). -/
def c2Window : WindowInfo :=
  { title := "Doc", id := 10, ownerName := "AppA", ownerProcessId := 77,
    ownerPath := "C:/AppA/AppA.bin" }

/-- System idle seconds at poll tick `k` (in seconds) for the C2 scenario:
the last input is at t = 5 s, activity resumes at exactly t = 70 s, so
`getSystemIdleTime` at tick `k` is `k − 5` for 5 < k < 70 and 0 otherwise. -/
def c2IdleSecs (k : Nat) : Nat :=
  if 5 < k ∧ k < 70 then k - 5 else 0

/-- Tracker state right after `start()` at t = 0 with App A focused. -/
def c2Init : TrackerState :=
  { currentWindow := some c2Window, windowStartTime := some 0,
    currentSessionId := none, isUserIdle := false, idleStartTime := none,
    accumulatedIdleTime := 0 }

/-- Run the 1 Hz poll loop for ticks t = 1 s … 71 s of the C2 scenario,
with App A focused throughout, collecting any flushed events. -/
def c2AfterPolls : TrackerState × List TrackerEvent :=
  (List.range 71).foldl
    (fun acc k =>
      let r := pollStep acc.1 (1000 * (k + 1)) (c2IdleSecs (k + 1)) (some c2Window)
      (r.1, acc.2 ++ r.2))
    (c2Init, [])

/-- The event produced by flushing App A at t = 72 s. -/
def c2FlushEvent : Option TrackerEvent :=
  flushCurrentWindow c2AfterPolls.1 72000

/-! ## Backend supervisor (src/electron/src/main/python-bridge.ts) -/

/-- Supervisor state: the `isRunning` flag and the restart counter. -/
structure BridgeState where
  isRunning : Bool
  restartAttempts : Nat
deriving DecidableEq

/-- Observable supervisor activity: emitted events and scheduled work. -/
inductive BridgeEmit where
  | stoppedEvt
  | restartScheduled (delayMs : Nat)
  | startedEvt
  | errorEvt (msg : String)
deriving DecidableEq

/-- The `process.on('exit')` handler: mark stopped, emit `stopped`; if the
exit code is non-zero, there is no terminating signal and fewer than
`MAX_RESTART_ATTEMPTS = 3` restarts have been tried, increment the counter
and schedule `start()` after `2000 * restartAttempts` ms. -/
def onProcessExit (st : BridgeState) (code : Int) (signal : Option String) :
    BridgeState × List BridgeEmit :=
  let st1 := { st with isRunning := false }
  if code ≠ 0 ∧ signal = none ∧ st1.restartAttempts < 3 then
    let st2 := { st1 with restartAttempts := st1.restartAttempts + 1 }
    (st2, [.stoppedEvt, .restartScheduled (2000 * st2.restartAttempts)])
  else (st1, [.stoppedEvt])

/-- A scheduled `start()` attempt, abstracted over whether the spawned
process ever answers the 500 ms health polls within the 30 s startup
window.  On success: running, counter reset, `started` emitted.  On
timeout: state unchanged, the fatal `Backend startup timeout` error is
surfaced on the emitter. -/
def startAttempt (st : BridgeState) (becomesHealthy : Bool) :
    BridgeState × List BridgeEmit :=
  if st.isRunning then (st, [])
  else if becomesHealthy then
    ({ isRunning := true, restartAttempts := 0 }, [.startedEvt])
  else (st, [.errorEvt "Backend startup timeout"])

/-- The C4 crash-loop: a healthy backend (counter 0) exits with code 1 and
no signal four times, each scheduled restart spawning a process that
crashes again before ever passing a health check (so the counter is never
reset and each pending `start()` eventually surfaces its startup-timeout
error). -/
def c4Trace : BridgeState × List BridgeEmit :=
  let s0 : BridgeState := { isRunning := true, restartAttempts := 0 }
  let c1 := onProcessExit s0 1 none
  let r1 := startAttempt c1.1 false
  let c2 := onProcessExit r1.1 1 none
  let r2 := startAttempt c2.1 false
  let c3 := onProcessExit r2.1 1 none
  let r3 := startAttempt c3.1 false
  let c4 := onProcessExit r3.1 1 none
  (c4.1, c1.2 ++ r1.2 ++ c2.2 ++ r2.2 ++ c3.2 ++ r3.2 ++ c4.2)

/-! ## Codec lemmas -/

theorem readLE32_append (b c : List Nat) (h : 4 ≤ b.length) :
    readLE32 (b ++ c) = readLE32 b := by
  rcases b with _ | ⟨b0, _ | ⟨b1, _ | ⟨b2, _ | ⟨b3, rest⟩⟩⟩⟩ <;> simp_all [readLE32]

theorem readLE32_le32 (n : Nat) (r : List Nat) (h : n < 4294967296) :
    readLE32 (le32 n ++ r) = n := by
  simp only [le32, List.cons_append, List.nil_append, readLE32]
  omega

theorem drainAux_succ (fuel : Nat) (buf : List Nat) :
    drainAux (fuel + 1) buf =
      if 4 + readLE32 buf ≤ buf.length then
        ((drainAux fuel (buf.drop (4 + readLE32 buf))).1,
         (buf.drop 4).take (readLE32 buf) :: (drainAux fuel (buf.drop (4 + readLE32 buf))).2)
      else (buf, []) := rfl

theorem drainAux_mono : ∀ (fuel : Nat) (buf : List Nat), buf.length ≤ fuel →
    drainAux (fuel + 1) buf = drainAux fuel buf := by
  intro fuel
  induction fuel with
  | zero =>
    intro buf h
    have hb : buf = [] := List.eq_nil_of_length_eq_zero (Nat.le_zero.mp h)
    subst hb
    simp [drainAux]
  | succ k ih =>
    intro buf h
    rw [drainAux_succ (k + 1) buf, drainAux_succ k buf]
    by_cases hc : 4 + readLE32 buf ≤ buf.length
    · rw [if_pos hc, if_pos hc,
        ih (buf.drop (4 + readLE32 buf)) (by simp [List.length_drop]; omega)]
    · rw [if_neg hc, if_neg hc]

theorem drainAux_add (k : Nat) : ∀ buf : List Nat,
    drainAux (buf.length + k) buf = decodeBuf buf := by
  induction k with
  | zero => intro buf; rfl
  | succ k ih =>
    intro buf
    have h1 : buf.length + (k + 1) = (buf.length + k) + 1 := by omega
    rw [h1, drainAux_mono (buf.length + k) buf (Nat.le_add_right _ _), ih]

theorem drainAux_eq_decodeBuf (fuel : Nat) (buf : List Nat) (h : buf.length ≤ fuel) :
    drainAux fuel buf = decodeBuf buf := by
  obtain ⟨k, rfl⟩ : ∃ k, fuel = buf.length + k := ⟨fuel - buf.length, by omega⟩
  exact drainAux_add k buf

theorem decodeBuf_cons (buf : List Nat) (h : 4 + readLE32 buf ≤ buf.length) :
    decodeBuf buf =
      ((decodeBuf (buf.drop (4 + readLE32 buf))).1,
       (buf.drop 4).take (readLE32 buf) ::
         (decodeBuf (buf.drop (4 + readLE32 buf))).2) := by
  obtain ⟨m, hm⟩ : ∃ m, buf.length = m + 1 := ⟨buf.length - 1, by omega⟩
  have hrest : (buf.drop (4 + readLE32 buf)).length ≤ m := by
    simp [List.length_drop]; omega
  have lhs : decodeBuf buf = drainAux (m + 1) buf := by unfold decodeBuf; rw [hm]
  rw [lhs, drainAux_succ, if_pos h, drainAux_eq_decodeBuf m _ hrest]

theorem decodeBuf_stall (buf : List Nat) (h : ¬ 4 + readLE32 buf ≤ buf.length) :
    decodeBuf buf = (buf, []) := by
  cases hb : buf.length with
  | zero =>
    have h0 : buf = [] := List.eq_nil_of_length_eq_zero hb
    subst h0
    rfl
  | succ m =>
    unfold decodeBuf
    rw [hb, drainAux_succ, if_neg h]

theorem decodeBuf_append : ∀ (L : Nat) (b c : List Nat), b.length ≤ L →
    decodeBuf (b ++ c) =
      ((decodeBuf ((decodeBuf b).1 ++ c)).1,
       (decodeBuf b).2 ++ (decodeBuf ((decodeBuf b).1 ++ c)).2) := by
  intro L
  induction L with
  | zero =>
    intro b c hb
    have h0 : b = [] := List.eq_nil_of_length_eq_zero (Nat.le_zero.mp hb)
    subst h0
    simp [decodeBuf, drainAux]
  | succ L ih =>
    intro b c hb
    by_cases h : 4 + readLE32 b ≤ b.length
    · have h4 : 4 ≤ b.length := by omega
      have hread : readLE32 (b ++ c) = readLE32 b := readLE32_append b c h4
      have hbc : 4 + readLE32 (b ++ c) ≤ (b ++ c).length := by
        rw [hread, List.length_append]; omega
      have hdrop : (b ++ c).drop (4 + readLE32 (b ++ c)) =
          b.drop (4 + readLE32 b) ++ c := by
        rw [hread, List.drop_append_of_le_length h]
      have hpay : ((b ++ c).drop 4).take (readLE32 (b ++ c)) =
          (b.drop 4).take (readLE32 b) := by
        rw [hread, List.drop_append_of_le_length h4,
          List.take_append_of_le_length (by simp [List.length_drop]; omega)]
      have hlen : (b.drop (4 + readLE32 b)).length ≤ L := by
        simp [List.length_drop]; omega
      rw [decodeBuf_cons (b ++ c) hbc, hdrop, hpay, ih (b.drop (4 + readLE32 b)) c hlen,
        decodeBuf_cons b h]
      simp
    · rw [decodeBuf_stall b h]
      simp

theorem foldl_feedChunk : ∀ (chunks : List (List Nat)) (B : List Nat),
    chunks.foldl feedChunk (decodeBuf B) = decodeBuf (B ++ chunks.flatten) := by
  intro chunks
  induction chunks with
  | nil => intro B; simp
  | cons c rest ih =>
    intro B
    have hfc : feedChunk (decodeBuf B) c = decodeBuf (B ++ c) := by
      unfold feedChunk
      rw [decodeBuf_append B.length B c (Nat.le_refl _)]
    rw [List.foldl_cons, hfc, ih (B ++ c)]
    simp [List.append_assoc]

theorem feedAll_eq_decodeBuf (chunks : List (List Nat)) :
    feedAll chunks = decodeBuf chunks.flatten := by
  have h : feedAll chunks = chunks.foldl feedChunk (decodeBuf []) := rfl
  rw [h, foldl_feedChunk chunks []]
  simp

theorem encFrame_length (p : List Nat) : (encFrame p).length = 4 + p.length := by
  simp [encFrame, le32]
  omega

theorem encLenSum_cons (f : List Nat) (fs : List (List Nat)) :
    encLenSum (f :: fs) = (4 + f.length) + encLenSum fs := by
  simp [encLenSum]

theorem stream_length (frames : List (List Nat)) :
    ((frames.map encFrame).flatten).length = encLenSum frames := by
  induction frames with
  | nil => simp [encLenSum]
  | cons f fs ih =>
    simp only [List.map_cons, List.flatten_cons, List.length_append, ih,
      encFrame_length, encLenSum_cons]

theorem fitCount_full (frames : List (List Nat)) :
    fitCount frames (encLenSum frames) = frames.length := by
  induction frames with
  | nil => simp [fitCount]
  | cons f fs ih =>
    simp only [fitCount, encLenSum_cons]
    rw [if_pos (by omega)]
    have harg : (4 + f.length) + encLenSum fs - (4 + f.length) = encLenSum fs := by omega
    rw [harg, ih]
    simp

theorem decodeBuf_stream : ∀ (frames : List (List Nat)) (pre suf : List Nat),
    (∀ f ∈ frames, f.length < 4294967296) →
    pre ++ suf = (frames.map encFrame).flatten →
    decodeBuf pre =
      (pre.drop (encLenSum (frames.take (fitCount frames pre.length))),
       frames.take (fitCount frames pre.length)) := by
  intro frames
  induction frames with
  | nil =>
    intro pre suf _ hjoin
    simp only [List.map_nil, List.flatten_nil] at hjoin
    obtain ⟨h0, -⟩ := List.append_eq_nil.mp hjoin
    subst h0
    simp [fitCount, encLenSum, decodeBuf, drainAux]
  | cons f fs ih =>
    intro pre suf hlen hjoin
    have hflen : f.length < 4294967296 := hlen f (by simp)
    simp only [List.map_cons, List.flatten_cons] at hjoin
    by_cases hfit : 4 + f.length ≤ pre.length
    · have hefl : (encFrame f).length = 4 + f.length := encFrame_length f
      have hpre_take : pre.take (4 + f.length) = encFrame f := by
        have h1 : (pre ++ suf).take (4 + f.length) = pre.take (4 + f.length) :=
          List.take_append_of_le_length hfit
        have h2 : (encFrame f ++ (fs.map encFrame).flatten).take (4 + f.length) =
            encFrame f := by
          rw [← hefl, List.take_left]
        rw [← h1, hjoin, h2]
      have hpre_decomp : pre = encFrame f ++ pre.drop (4 + f.length) := by
        conv_lhs => rw [← List.take_append_drop (4 + f.length) pre]
        rw [hpre_take]
      have hsuf' : pre.drop (4 + f.length) ++ suf = (fs.map encFrame).flatten := by
        have hx : encFrame f ++ (pre.drop (4 + f.length) ++ suf) =
            encFrame f ++ (fs.map encFrame).flatten := by
          rw [← List.append_assoc, ← hpre_decomp, hjoin]
        exact List.append_cancel_left hx
      have hn : readLE32 pre = f.length := by
        rw [hpre_decomp]
        unfold encFrame
        rw [List.append_assoc]
        exact readLE32_le32 f.length _ hflen
      have hpay : (pre.drop 4).take (readLE32 pre) = f := by
        rw [hn]
        conv_lhs => rw [hpre_decomp]
        unfold encFrame
        rw [List.append_assoc, List.drop_append_of_le_length (by simp [le32])]
        have hd4 : (le32 f.length).drop 4 = [] := by simp [le32]
        rw [hd4, List.nil_append, List.take_left]
      have hdrop : pre.drop (4 + readLE32 pre) = pre.drop (4 + f.length) := by rw [hn]
      have hcons := decodeBuf_cons pre (by rw [hn]; exact hfit)
      rw [hcons, hpay, hdrop,
        ih (pre.drop (4 + f.length)) suf (fun g hg => hlen g (by simp [hg])) hsuf']
      have hplen : (pre.drop (4 + f.length)).length = pre.length - (4 + f.length) := by
        simp [List.length_drop]
      have hfc : fitCount (f :: fs) pre.length =
          fitCount fs (pre.drop (4 + f.length)).length + 1 := by
        simp only [fitCount]
        rw [if_pos hfit, hplen]
      rw [hfc, List.take_succ_cons, encLenSum_cons, List.drop_drop]
    · have hstall : ¬ 4 + readLE32 pre ≤ pre.length := by
        by_cases h4 : 4 ≤ pre.length
        · have hr : readLE32 pre = f.length := by
            have h1 := readLE32_append pre suf h4
            rw [hjoin] at h1
            unfold encFrame at h1
            rw [List.append_assoc, readLE32_le32 f.length _ hflen] at h1
            omega
          omega
        · have : readLE32 pre + 4 ≥ 4 := by omega
          omega
      rw [decodeBuf_stall pre hstall]
      have hfc0 : fitCount (f :: fs) pre.length = 0 := by
        simp only [fitCount]
        rw [if_neg hfit]
      rw [hfc0]
      simp [encLenSum]

/-- C1: the claim asserts that encoding any message — explicitly including
ones whose JSON serialization contains non-ASCII characters — yields a
frame whose length prefix equals the exact UTF-8 byte length of the
payload and which the decoder round-trips to the original message.  The
code violates this: for the message whose JSON serialization is the
9-character `c1Json` (UTF-8 size 10 bytes, because of `é`), `sendMessage`
writes the UTF-16 code-unit count 9 as the prefix — not the 10-byte UTF-8
length — and `Buffer.write` truncates the payload to the first 9 bytes,
dropping the closing brace.  The decoder therefore surfaces a payload that
differs from the serialization of the message (and is not even valid
JSON), so the message never round-trips. -/
theorem c1_sendMessage_truncates_nonascii :
    readLE32 (sendMessageBytes c1Json) = 9 ∧
    (strUtf8 c1Json).length = 10 ∧
    sendMessageBytes c1Json = le32 9 ++ strUtf8 c1Json.dropLast ∧
    decodeBuf (sendMessageBytes c1Json) = ([], [strUtf8 c1Json.dropLast]) ∧
    strUtf8 c1Json.dropLast ≠ strUtf8 c1Json := by
  decide

/-- C3: for every byte stream that is the concatenation of the
well-formed encodings of `frames` and for every way of splitting it into
chunks, feeding the chunks in order yields exactly the frame payloads in
arrival order with an empty leftover buffer; and after any number `i` of
chunks, exactly those frames whose complete `4 + length` encodings already
fit in the bytes buffered so far have been surfaced — a frame whose
declared length exceeds the buffered bytes is never decoded early. -/
theorem c3_frame_reassembly_split_invariant
    (frames chunks : List (List Nat)) (i : Nat)
    (hlen : ∀ f ∈ frames, f.length < 4294967296)
    (hjoin : chunks.flatten = (frames.map encFrame).flatten) :
    feedAll chunks = ([], frames) ∧
    (feedAll (chunks.take i)).2 =
      frames.take (fitCount frames ((chunks.take i).flatten).length) := by
  constructor
  · rw [feedAll_eq_decodeBuf, hjoin,
      decodeBuf_stream frames ((frames.map encFrame).flatten) [] hlen (by simp)]
    rw [stream_length, fitCount_full, List.take_length]
    rw [← stream_length frames, List.drop_length]
  · rw [feedAll_eq_decodeBuf]
    have hps : (chunks.take i).flatten ++ (chunks.drop i).flatten =
        (frames.map encFrame).flatten := by
      rw [← List.flatten_append, List.take_append_drop, hjoin]
    rw [decodeBuf_stream frames ((chunks.take i).flatten) ((chunks.drop i).flatten)
      hlen hps]

/-- Witness for C3 at a concrete split: two frames (payloads `[49]` and
`[50, 51]`) whose 11-byte stream arrives in five chunks cutting through
both prefixes; after 4 chunks only the first frame is out. -/
theorem c3_frame_reassembly_split_invariant_witness :
    feedAll [[1], [0, 0, 0, 49, 2], [0], [0, 0, 50], [51]] = ([], [[49], [50, 51]]) ∧
    (feedAll ([[1], [0, 0, 0, 49, 2], [0], [0, 0, 50], [51]].take 4)).2 = [[49]] := by
  have h := c3_frame_reassembly_split_invariant [[49], [50, 51]]
    [[1], [0, 0, 0, 49, 2], [0], [0, 0, 50], [51]] 4 (by decide) (by decide)
  refine ⟨h.1, ?_⟩
  rw [h.2]
  decide

/-- C2 counterexample: in the claimed scenario — App A focused from t = 0,
system idle from t = 5 s to t = 70 s with the 60 s threshold, activity
resuming at t = 70 s, polls every second, App A flushed at t = 72 s — the
code does emit exactly one event, but its idle time is 5 000 ms and its
active time 67 000 ms, because `poll` records `idleStartTime = new Date()`
at the tick where the threshold is first crossed (t = 65 s) instead of
backdating it to the start of inactivity (t = 5 s).  The claimed values
idle ≈ 65 s / active ≈ 2 s (here taken with a generous ±2 s tolerance)
are therefore false at this input. -/
theorem c2_idle_accounting_counterexample :
    c2AfterPolls.2 = [] ∧
    c2FlushEvent = some ⟨none, "AppA", 0, 72000, 67000, 5000, 10, "Doc"⟩ ∧
    ¬ (∀ e ∈ c2FlushEvent.toList,
        63000 ≤ e.idleTime ∧ e.idleTime ≤ 67000 ∧ e.activeTime ≤ 4000) := by
  decide

/-- C2 amended: in the scenario above, the flush emits exactly one
ActivityEvent (not two — the idle interval is folded into the window it
occurred within), whose idle time is 5 seconds — the portion of the idle
interval between the threshold-crossing detection at t = 65 s and the
detected return to activity at t = 70 s — and whose active time is
67 seconds (the 72 s elapsed minus the 5 s of recorded idle); the
pre-threshold part of the idle interval is counted as active time. -/
theorem c2_amended_idle_from_detection :
    c2AfterPolls.2 ++ c2FlushEvent.toList =
      [⟨none, "AppA", 0, 72000, 67000, 5000, 10, "Doc"⟩] := by
  decide

/-- C4: starting from a healthy backend with a fresh restart counter, four
successive exits with code 1 and no signal — none of the scheduled
restarts ever passing a health check — produce exactly three scheduled
restarts with linearly increasing delays 2 s, 4 s, 6 s; the fourth crash
schedules no restart, the supervisor remains stopped
(`isRunning = false`), and the fatal `Backend startup timeout` error of
each failed start attempt is surfaced to the operator. -/
theorem c4_restart_backoff_bounded :
    c4Trace =
      ({ isRunning := false, restartAttempts := 3 },
       [.stoppedEvt, .restartScheduled 2000, .errorEvt "Backend startup timeout",
        .stoppedEvt, .restartScheduled 4000, .errorEvt "Backend startup timeout",
        .stoppedEvt, .restartScheduled 6000, .errorEvt "Backend startup timeout",
        .stoppedEvt]) := by
  decide

/-! ## Relay server lemmas -/

theorem serverHandleMessage_deadline (st : ServerState) (now : Nat)
    (m : ExtMessage) (b : Backend) :
    (serverHandleMessage st now m b).state.timerDeadline = some (now + 120000) := by
  cases m with
  | connect =>
    unfold serverHandleMessage handleConnect
    rcases b.createSessionRes with ⟨s, d, e⟩
    cases s <;> cases d <;> simp [resetConnectionTimeout]
    split <;> simp
  | activityBatch evs =>
    unfold serverHandleMessage handleActivityBatch
    cases evs with
    | none => simp [resetConnectionTimeout]
    | some l =>
      cases l with
      | nil => simp [resetConnectionTimeout]
      | cons x xs =>
        simp only
        split <;> simp [resetConnectionTimeout]
  | heartbeat => rfl
  | other t => rfl

theorem serverHandleMessage_connected_other (st : ServerState) (now : Nat)
    (k : String) (b : Backend) :
    (serverHandleMessage st now (.other k) b).state.extensionConnected =
      st.extensionConnected ∧
    (serverHandleMessage st now (.other k) b).events = [] := by
  exact ⟨rfl, rfl⟩

theorem runServer_no_timer : ∀ (inputs : List ServerInput) (st : ServerState),
    st.timerDeadline = none →
    (∀ i ∈ inputs, ∃ t, i = ServerInput.timerAt t) →
    runServer st inputs = (st, []) := by
  intro inputs
  induction inputs with
  | nil => intro st _ _; rfl
  | cons i rest ih =>
    intro st h1 h2
    obtain ⟨t, rfl⟩ := h2 i (by simp)
    have hne : ¬ st.timerDeadline = some t := by rw [h1]; simp
    simp only [runServer, if_neg hne]
    exact ih st h1 (fun j hj => h2 j (by simp [hj]))

theorem runServer_fires_once : ∀ (inputs : List ServerInput) (st : ServerState) (d : Nat),
    st.extensionConnected = true →
    st.timerDeadline = some d →
    (∀ i ∈ inputs, ∃ t, i = ServerInput.timerAt t) →
    ServerInput.timerAt d ∈ inputs →
    (runServer st inputs).1.extensionConnected = false ∧
    (runServer st inputs).2.count ServerEvent.extensionDisconnectedEvt = 1 := by
  intro inputs
  induction inputs with
  | nil => intro st d _ _ _ h4; simp at h4
  | cons i rest ih =>
    intro st d h1 h2 h3 h4
    obtain ⟨t, rfl⟩ := h3 i (by simp)
    by_cases ht : t = d
    · subst ht
      simp only [runServer, h2, if_pos rfl]
      have hfire : connectionTimerFire st =
          ({ st with extensionConnected := false, timerDeadline := none },
           [ServerEvent.extensionDisconnectedEvt]) := by
        unfold connectionTimerFire
        rw [if_pos h1]
      rw [hfire]
      rw [runServer_no_timer rest _ (by simp) (fun j hj => h3 j (by simp [hj]))]
      simp [List.count_cons]
    · have hne : ¬ st.timerDeadline = some t := by
        rw [h2]; simp; omega
      simp only [runServer, if_neg hne]
      have hmem : ServerInput.timerAt d ∈ rest := by
        rcases List.mem_cons.mp h4 with h | h
        · exact absurd (by injection h with h'; omega) (fun hh : False => hh)
        · exact h
      exact ih st d h1 h2 (fun j hj => h3 j (by simp [hj])) hmem

/-- C5: if a message handled at time `t0` leaves the "extension connected"
flag true (arming the one-shot 120 000 ms liveness timer), and no further
message arrives — so that the only remaining occurrences are timer
firings — then the armed timer fires at `t0 + 120000` (within the
121-second silence window), the flag transitions from true to false, and
exactly one `extensionDisconnected` event is emitted over the whole run;
the flag never flips again without an intervening message. -/
theorem c5_liveness_timeout_flips_once
    (st : ServerState) (t0 : Nat) (m : ExtMessage) (b : Backend)
    (inputs : List ServerInput)
    (hconn : (serverHandleMessage st t0 m b).state.extensionConnected = true)
    (hsilent : ∀ i ∈ inputs, ∃ t, i = ServerInput.timerAt t)
    (hfire : ServerInput.timerAt (t0 + 120000) ∈ inputs) :
    (runServer (serverHandleMessage st t0 m b).state inputs).1.extensionConnected = false ∧
    (runServer (serverHandleMessage st t0 m b).state inputs).2.count
      ServerEvent.extensionDisconnectedEvt = 1 ∧
    t0 + 120000 ≤ t0 + 121000 := by
  have h := runServer_fires_once inputs (serverHandleMessage st t0 m b).state
    (t0 + 120000) hconn (serverHandleMessage_deadline st t0 m b) hsilent hfire
  exact ⟨h.1, h.2, by omega⟩

/-- Witness for C5: a successful `connect` at t = 0 marks the extension
connected; with only the timer occurrence at t = 120 000 following, the
flag ends false after exactly one disconnection event. -/
theorem c5_liveness_timeout_flips_once_witness :
    (runServer (serverHandleMessage ⟨none, 0, false, none⟩ 0 .connect
        ⟨⟨true, some "s1", none⟩, fun _ => ⟨true, some [], none⟩⟩).state
      [ServerInput.timerAt 120000]).1.extensionConnected = false ∧
    (runServer (serverHandleMessage ⟨none, 0, false, none⟩ 0 .connect
        ⟨⟨true, some "s1", none⟩, fun _ => ⟨true, some [], none⟩⟩).state
      [ServerInput.timerAt 120000]).2.count ServerEvent.extensionDisconnectedEvt = 1 := by
  have h := c5_liveness_timeout_flips_once ⟨none, 0, false, none⟩ 0 .connect
    ⟨⟨true, some "s1", none⟩, fun _ => ⟨true, some [], none⟩⟩
    [ServerInput.timerAt 120000] rfl
    (by intro i hi; simp at hi; exact ⟨120000, hi⟩)
    (by simp)
  exact ⟨h.1, h.2.1⟩

theorem runServer_keepsAlive : ∀ (inputs : List ServerInput) (st : ServerState) (d : Nat),
    st.timerDeadline = some d →
    (∀ i ∈ inputs, (∃ t k b, i = ServerInput.message t (.other k) b) ∨
      (∃ t, i = ServerInput.timerAt t)) →
    keepsAliveB d inputs = true →
    (runServer st inputs).1.extensionConnected = st.extensionConnected ∧
    (runServer st inputs).2.count ServerEvent.extensionDisconnectedEvt = 0 := by
  intro inputs
  induction inputs with
  | nil => intro st d _ _ _; exact ⟨rfl, rfl⟩
  | cons i rest ih =>
    intro st d hd hkinds halive
    rcases hkinds i (by simp) with ⟨t, k, b, rfl⟩ | ⟨t, rfl⟩
    · simp only [runServer]
      have hstep : (serverHandleMessage st t (.other k) b).state =
          { st with timerDeadline := some (t + 120000) } := rfl
      have halive' : keepsAliveB (t + 120000) rest = true := by
        simpa [keepsAliveB] using halive
      have hrec := ih { st with timerDeadline := some (t + 120000) } (t + 120000) rfl
        (fun j hj => hkinds j (by simp [hj])) halive'
      rw [hstep]
      refine ⟨hrec.1, ?_⟩
      have hev : (serverHandleMessage st t (.other k) b).events = [] := rfl
      simp [hev, hrec.2]
    · have halive' : t < d ∧ keepsAliveB d rest = true := by
        simpa [keepsAliveB] using halive
      have hne : ¬ st.timerDeadline = some t := by
        rw [hd]; simp; omega
      simp only [runServer, if_neg hne]
      exact ih st d hd (fun j hj => hkinds j (by simp [hj])) halive'.2

/-- C9: `handleMessage` resets the 120 000 ms liveness timer before
dispatching — for every message kind, including ones with an unrecognized
discriminator, which are answered with an `error` reply; consequently, in
a run of unknown-kind messages where every timer occurrence predates the
deadline pending at that point (each message arrived within the 120 s
window and re-armed the timer), the "extension connected" flag never
transitions and no disconnection event fires. -/
theorem c9_unknown_messages_keep_alive
    (st : ServerState) (d : Nat) (inputs : List ServerInput)
    (hd : st.timerDeadline = some d)
    (hkinds : ∀ i ∈ inputs, (∃ t k b, i = ServerInput.message t (.other k) b) ∨
      (∃ t, i = ServerInput.timerAt t))
    (halive : keepsAliveB d inputs = true) :
    (∀ (st' : ServerState) (now : Nat) (m : ExtMessage) (b : Backend),
      (serverHandleMessage st' now m b).state.timerDeadline = some (now + 120000)) ∧
    (∀ (st' : ServerState) (now : Nat) (k : String) (b : Backend),
      (serverHandleMessage st' now (.other k) b).reply =
        .error ("Unknown message type: " ++ k)) ∧
    (runServer st inputs).1.extensionConnected = st.extensionConnected ∧
    (runServer st inputs).2.count ServerEvent.extensionDisconnectedEvt = 0 := by
  have h := runServer_keepsAlive inputs st d hd hkinds halive
  exact ⟨fun st' now m b => serverHandleMessage_deadline st' now m b,
    fun _ _ _ _ => rfl, h.1, h.2⟩

/-- Witness for C9: two unknown-kind messages 119 s apart, with the stale
timer occurrence of the first deadline arriving between them, leave a
connected server connected with no disconnection event. -/
theorem c9_unknown_messages_keep_alive_witness :
    (runServer ⟨none, 0, true, some 120000⟩
      [ServerInput.message 1000 (.other "bogus") ⟨⟨false, none, none⟩, fun _ => ⟨false, none, none⟩⟩,
       ServerInput.timerAt 120000,
       ServerInput.message 120000 (.other "bogus2") ⟨⟨false, none, none⟩, fun _ => ⟨false, none, none⟩⟩]).1.extensionConnected = true ∧
    (runServer ⟨none, 0, true, some 120000⟩
      [ServerInput.message 1000 (.other "bogus") ⟨⟨false, none, none⟩, fun _ => ⟨false, none, none⟩⟩,
       ServerInput.timerAt 120000,
       ServerInput.message 120000 (.other "bogus2") ⟨⟨false, none, none⟩, fun _ => ⟨false, none, none⟩⟩]).2.count
      ServerEvent.extensionDisconnectedEvt = 0 := by
  have h := c9_unknown_messages_keep_alive ⟨none, 0, true, some 120000⟩ 120000
    [ServerInput.message 1000 (.other "bogus") ⟨⟨false, none, none⟩, fun _ => ⟨false, none, none⟩⟩,
     ServerInput.timerAt 120000,
     ServerInput.message 120000 (.other "bogus2") ⟨⟨false, none, none⟩, fun _ => ⟨false, none, none⟩⟩]
    rfl
    (by
      intro i hi
      simp only [List.mem_cons, List.not_mem_nil, or_false] at hi
      rcases hi with rfl | rfl | rfl
      · exact Or.inl ⟨1000, "bogus", _, rfl⟩
      · exact Or.inr ⟨120000, rfl⟩
      · exact Or.inl ⟨120000, "bogus2", _, rfl⟩)
    (by decide)
  exact ⟨h.2.2.1, h.2.2.2⟩

theorem runServer_stays_disconnected : ∀ (inputs : List ServerInput) (st : ServerState),
    st.extensionConnected = false →
    (∀ i ∈ inputs, (∃ t b, i = ServerInput.message t .heartbeat b) ∨
      (∃ t, i = ServerInput.timerAt t)) →
    (runServer st inputs).1.extensionConnected = false := by
  intro inputs
  induction inputs with
  | nil => intro st h _; exact h
  | cons i rest ih =>
    intro st hdisc hkinds
    rcases hkinds i (by simp) with ⟨t, b, rfl⟩ | ⟨t, rfl⟩
    · simp only [runServer]
      exact ih _ hdisc (fun j hj => hkinds j (by simp [hj]))
    · by_cases hg : st.timerDeadline = some t
      · simp only [runServer, if_pos hg]
        have hfire : (connectionTimerFire st).1.extensionConnected = false := by
          unfold connectionTimerFire
          split <;> simp [hdisc]
        exact ih _ hfire (fun j hj => hkinds j (by simp [hj]))
      · simp only [runServer, if_neg hg]
        exact ih _ hdisc (fun j hj => hkinds j (by simp [hj]))

/-- C10: handling a `heartbeat` leaves both the current session and the
"extension connected" flag unchanged and replies with an ack carrying the
timestamp and the existing session id (absent when there is none); a
heartbeat never sets the flag to true — so after a liveness disconnect, a
run consisting only of heartbeats (and timer occurrences) never restores
the connected state. -/
theorem c10_heartbeat_frame_effect
    (st : ServerState) (now : Nat) (b : Backend) (inputs : List ServerInput)
    (hdisc : st.extensionConnected = false)
    (hkinds : ∀ i ∈ inputs, (∃ t b', i = ServerInput.message t .heartbeat b') ∨
      (∃ t, i = ServerInput.timerAt t)) :
    (serverHandleMessage st now .heartbeat b).state.currentSession = st.currentSession ∧
    (serverHandleMessage st now .heartbeat b).state.extensionConnected =
      st.extensionConnected ∧
    (serverHandleMessage st now .heartbeat b).reply =
      .heartbeatAck now (st.currentSession.map SessionInfo.sessionId) ∧
    (runServer st inputs).1.extensionConnected = false := by
  exact ⟨rfl, rfl, rfl, runServer_stays_disconnected inputs st hdisc hkinds⟩

/-- Witness for C10: a disconnected server with a stored session receives
a heartbeat at t = 7, replying `ack` with the session id and staying
disconnected through a heartbeat-only run. -/
theorem c10_heartbeat_frame_effect_witness :
    (serverHandleMessage ⟨some ⟨"sess"⟩, 0, false, none⟩ 7 .heartbeat
      ⟨⟨false, none, none⟩, fun _ => ⟨false, none, none⟩⟩).reply =
      .heartbeatAck 7 (some "sess") ∧
    (runServer ⟨some ⟨"sess"⟩, 0, false, none⟩
      [ServerInput.message 7 .heartbeat ⟨⟨false, none, none⟩, fun _ => ⟨false, none, none⟩⟩,
       ServerInput.timerAt 120007]).1.extensionConnected = false := by
  have h := c10_heartbeat_frame_effect ⟨some ⟨"sess"⟩, 0, false, none⟩ 7
    ⟨⟨false, none, none⟩, fun _ => ⟨false, none, none⟩⟩
    [ServerInput.message 7 .heartbeat ⟨⟨false, none, none⟩, fun _ => ⟨false, none, none⟩⟩,
     ServerInput.timerAt 120007]
    rfl
    (by
      intro i hi
      simp only [List.mem_cons, List.not_mem_nil, or_false] at hi
      rcases hi with rfl | rfl
      · exact Or.inl ⟨7, _, rfl⟩
      · exact Or.inr ⟨120007, rfl⟩)
  exact ⟨h.2.2.1, h.2.2.2⟩

theorem jsOrNull_of_ne (cur : Option SessionInfo)
    (h : ∀ s, cur = some s → s.sessionId ≠ "") :
    jsOrNull (cur.map SessionInfo.sessionId) = cur.map SessionInfo.sessionId := by
  cases cur with
  | none => rfl
  | some s =>
    show jsOrNull (some s.sessionId) = some s.sessionId
    rw [show jsOrNull (some s.sessionId) =
      if s.sessionId = "" then none else some s.sessionId from rfl]
    rw [if_neg (h s rfl)]

theorem serverConnect_success (st : ServerState) (t : Nat) (sid : String)
    (sub : List RawEvent → ApiResponse (List String)) :
    (serverHandleMessage st t .connect ⟨⟨true, some sid, none⟩, sub⟩).reply =
      .session sid "active" ∧
    (serverHandleMessage st t .connect ⟨⟨true, some sid, none⟩, sub⟩).state.currentSession =
      some ⟨sid⟩ ∧
    (serverHandleMessage st t .connect ⟨⟨true, some sid, none⟩, sub⟩).state.extensionConnected =
      true := by
  unfold serverHandleMessage handleConnect
  simp only
  split
  · next h => exact ⟨rfl, rfl, h⟩
  · exact ⟨rfl, rfl, rfl⟩

/-- C6: two consecutive `connect` messages with successful backend session
creations (the backend mints a fresh id each time, so `s1 ≠ s2`) yield two
`session/active` replies carrying the two distinct ids; the stored current
session is replaced by the second; any later `activity_batch` handled
while the stored session is still `s2` forwards every event stamped with
`s2` only — and no non-`connect` message ever changes the stored session. -/
theorem c6_two_connects_latest_session
    (st : ServerState) (t1 t2 : Nat) (s1 s2 : String)
    (sub1 sub2 : List RawEvent → ApiResponse (List String))
    (hne : s1 ≠ s2) (hs2 : s2 ≠ "") :
    (serverHandleMessage st t1 .connect ⟨⟨true, some s1, none⟩, sub1⟩).reply =
      .session s1 "active" ∧
    (serverHandleMessage
      (serverHandleMessage st t1 .connect ⟨⟨true, some s1, none⟩, sub1⟩).state
      t2 .connect ⟨⟨true, some s2, none⟩, sub2⟩).reply = .session s2 "active" ∧
    (serverHandleMessage st t1 .connect ⟨⟨true, some s1, none⟩, sub1⟩).state.currentSession =
      some ⟨s1⟩ ∧
    (serverHandleMessage
      (serverHandleMessage st t1 .connect ⟨⟨true, some s1, none⟩, sub1⟩).state
      t2 .connect ⟨⟨true, some s2, none⟩, sub2⟩).state.currentSession = some ⟨s2⟩ ∧
    (some (⟨s1⟩ : SessionInfo) ≠ some (⟨s2⟩ : SessionInfo)) ∧
    (∀ (st' : ServerState) (t : Nat) (evs : List RawEvent) (b' : Backend),
      st'.currentSession = some ⟨s2⟩ → evs ≠ [] →
      (serverHandleMessage st' t (.activityBatch (some evs)) b').forwardedBatch =
        some (evs.map (fun e => { e with sessionId := some s2 }))) ∧
    (∀ (st' : ServerState) (t : Nat) (evs : Option (List RawEvent)) (b' : Backend),
      (serverHandleMessage st' t (.activityBatch evs) b').state.currentSession =
        st'.currentSession) ∧
    (∀ (st' : ServerState) (t : Nat) (b' : Backend),
      (serverHandleMessage st' t .heartbeat b').state.currentSession =
        st'.currentSession) ∧
    (∀ (st' : ServerState) (t : Nat) (k : String) (b' : Backend),
      (serverHandleMessage st' t (.other k) b').state.currentSession =
        st'.currentSession) := by
  refine ⟨(serverConnect_success st t1 s1 sub1).1,
    (serverConnect_success _ t2 s2 sub2).1,
    (serverConnect_success st t1 s1 sub1).2.1,
    (serverConnect_success _ t2 s2 sub2).2.1,
    by simp [hne], ?_, ?_, ?_, ?_⟩
  · intro st' t evs b' hcur hevs
    cases evs with
    | nil => exact absurd rfl hevs
    | cons x xs =>
      unfold serverHandleMessage handleActivityBatch
      have hstamp : stampEvents (resetConnectionTimeout st' t).currentSession (x :: xs) =
          (x :: xs).map (fun e => { e with sessionId := some s2 }) := by
        unfold stampEvents
        have hcur' : (resetConnectionTimeout st' t).currentSession = some ⟨s2⟩ := hcur
        have hj : jsOrNull (Option.map SessionInfo.sessionId (some ⟨s2⟩)) = some s2 := by
          show jsOrNull (some s2) = some s2
          rw [show jsOrNull (some s2) = if s2 = "" then none else some s2 from rfl,
            if_neg hs2]
        simp only [hcur', hj]
      simp only
      split <;> simp [hstamp]
  · intro st' t evs b'
    unfold serverHandleMessage handleActivityBatch
    cases evs with
    | none => rfl
    | some l =>
      cases l with
      | nil => rfl
      | cons x xs =>
        simp only
        split <;> rfl
  · intro st' t b'; rfl
  · intro st' t k b'; rfl

/-- Witness for C6: two successful connects minting `"sa"` then `"sb"`,
followed by a one-event batch forwarded with stamp `"sb"`. -/
theorem c6_two_connects_latest_session_witness :
    (serverHandleMessage ⟨none, 0, false, none⟩ 1 .connect
      ⟨⟨true, some "sa", none⟩, fun _ => ⟨true, some [], none⟩⟩).reply =
      .session "sa" "active" ∧
    (serverHandleMessage
      (serverHandleMessage ⟨none, 0, false, none⟩ 1 .connect
        ⟨⟨true, some "sa", none⟩, fun _ => ⟨true, some [], none⟩⟩).state
      2 .connect ⟨⟨true, some "sb", none⟩, fun _ => ⟨true, some [], none⟩⟩).state.currentSession =
      some ⟨"sb"⟩ ∧
    (serverHandleMessage
      (serverHandleMessage
        (serverHandleMessage ⟨none, 0, false, none⟩ 1 .connect
          ⟨⟨true, some "sa", none⟩, fun _ => ⟨true, some [], none⟩⟩).state
        2 .connect ⟨⟨true, some "sb", none⟩, fun _ => ⟨true, some [], none⟩⟩).state
      3 (.activityBatch (some [⟨"ev", some "sa"⟩]))
      ⟨⟨false, none, none⟩, fun _ => ⟨true, some ["x1"], none⟩⟩).forwardedBatch =
      some [⟨"ev", some "sb"⟩] := by
  have h := c6_two_connects_latest_session ⟨none, 0, false, none⟩ 1 2 "sa" "sb"
    (fun _ => ⟨true, some [], none⟩) (fun _ => ⟨true, some [], none⟩)
    (by decide) (by decide)
  refine ⟨h.1, h.2.2.2.1, ?_⟩
  have hb := h.2.2.2.2.2.1
    (serverHandleMessage
      (serverHandleMessage ⟨none, 0, false, none⟩ 1 .connect
        ⟨⟨true, some "sa", none⟩, fun _ => ⟨true, some [], none⟩⟩).state
      2 .connect ⟨⟨true, some "sb", none⟩, fun _ => ⟨true, some [], none⟩⟩).state
    3 [⟨"ev", some "sa"⟩] ⟨⟨false, none, none⟩, fun _ => ⟨true, some ["x1"], none⟩⟩
    h.2.2.2.1 (by decide)
  exact hb.trans (by decide)

/-- C7: an `activity_batch` with an absent or empty `events` array is
acknowledged with an empty id list and nothing is forwarded; a non-empty
batch is never rejected for a missing session — every event is stamped
with the current session id, or null when no session exists, the stamped
batch is forwarded to the backend, and the reply carries the backend's
assigned ids on success or an `error` reply on forwarding failure. -/
theorem c7_activity_batch_contract
    (st : ServerState) (now : Nat) (evs : List RawEvent) (b : Backend)
    (hsid : ∀ s, st.currentSession = some s → s.sessionId ≠ "") :
    ((serverHandleMessage st now (.activityBatch none) b).reply = .ack [] ∧
     (serverHandleMessage st now (.activityBatch none) b).forwardedBatch = none) ∧
    ((serverHandleMessage st now (.activityBatch (some [])) b).reply = .ack [] ∧
     (serverHandleMessage st now (.activityBatch (some [])) b).forwardedBatch = none) ∧
    (evs ≠ [] →
      (serverHandleMessage st now (.activityBatch (some evs)) b).forwardedBatch =
        some (evs.map (fun e =>
          { e with sessionId := st.currentSession.map SessionInfo.sessionId })) ∧
      (serverHandleMessage st now (.activityBatch (some evs)) b).reply =
        (match (b.submitRes (stampEvents st.currentSession evs)).success,
               (b.submitRes (stampEvents st.currentSession evs)).data with
         | true, some ids => .ack ids
         | _, _ => .error (jsOrElse
             (b.submitRes (stampEvents st.currentSession evs)).error
             "Failed to process activity batch"))) := by
  refine ⟨⟨rfl, rfl⟩, ⟨rfl, rfl⟩, ?_⟩
  intro hevs
  cases evs with
  | nil => exact absurd rfl hevs
  | cons x xs =>
    have hstamp : stampEvents (resetConnectionTimeout st now).currentSession (x :: xs) =
        (x :: xs).map (fun e =>
          { e with sessionId := st.currentSession.map SessionInfo.sessionId }) := by
      unfold stampEvents
      have hcur : (resetConnectionTimeout st now).currentSession = st.currentSession := rfl
      rw [hcur, jsOrNull_of_ne st.currentSession hsid]
    have hcur2 : stampEvents st.currentSession (x :: xs) =
        stampEvents (resetConnectionTimeout st now).currentSession (x :: xs) := rfl
    constructor
    · unfold serverHandleMessage handleActivityBatch
      simp only
      split <;> simp [hstamp]
    · unfold serverHandleMessage handleActivityBatch
      rw [hcur2, hstamp]
      simp only
      split <;> simp_all

/-- Witness for C7: a server holding session `"sess"` forwards a one-event
batch stamped `"sess"` and relays the backend's assigned id; with no
session the event is stamped null rather than rejected. -/
theorem c7_activity_batch_contract_witness :
    (serverHandleMessage ⟨some ⟨"sess"⟩, 0, true, none⟩ 5
      (.activityBatch (some [⟨"p", some "old"⟩]))
      ⟨⟨true, none, none⟩, fun _ => ⟨true, some ["id1"], none⟩⟩).forwardedBatch =
      some [⟨"p", some "sess"⟩] ∧
    (serverHandleMessage ⟨some ⟨"sess"⟩, 0, true, none⟩ 5
      (.activityBatch (some [⟨"p", some "old"⟩]))
      ⟨⟨true, none, none⟩, fun _ => ⟨true, some ["id1"], none⟩⟩).reply = .ack ["id1"] ∧
    (serverHandleMessage ⟨none, 0, true, none⟩ 5
      (.activityBatch (some [⟨"p", some "old"⟩]))
      ⟨⟨true, none, none⟩, fun _ => ⟨true, some ["id1"], none⟩⟩).forwardedBatch =
      some [⟨"p", none⟩] := by
  have h1 := c7_activity_batch_contract ⟨some ⟨"sess"⟩, 0, true, none⟩ 5
    [⟨"p", some "old"⟩] ⟨⟨true, none, none⟩, fun _ => ⟨true, some ["id1"], none⟩⟩
    (by intro s hs; cases hs; decide)
  have h2 := c7_activity_batch_contract ⟨none, 0, true, none⟩ 5
    [⟨"p", some "old"⟩] ⟨⟨true, none, none⟩, fun _ => ⟨true, some ["id1"], none⟩⟩
    (by intro s hs; cases hs)
  have h1b := h1.2.2 (by decide)
  have h2b := h2.2.2 (by decide)
  exact ⟨h1b.1.trans (by decide), h1b.2.trans (by decide), h2b.1.trans (by decide)⟩

/-! ## Native host error-reply lemmas -/

theorem allAsciiB_iff (s : List Char) : allAsciiB s = true ↔ ∀ c ∈ s, c.toNat < 128 := by
  simp [allAsciiB]

theorem bufWrite_ascii : ∀ s : List Char, allAsciiB s = true →
    strUtf16Len s = s.length ∧ strUtf8 s = s.map Char.toNat ∧
    bufWrite s s.length = s.map Char.toNat := by
  intro s
  induction s with
  | nil => intro _; exact ⟨rfl, rfl, rfl⟩
  | cons c rest ih =>
    intro h
    rw [allAsciiB_iff] at h
    have hc : c.toNat < 128 := h c (by simp)
    have hrest := ih ((allAsciiB_iff rest).mpr (fun d hd => h d (by simp [hd])))
    have hbytes : utf8EncodeCharBytes c = [c.toNat] := by
      unfold utf8EncodeCharBytes
      rw [if_pos hc]
    refine ⟨?_, ?_, ?_⟩
    · show utf16Units c + strUtf16Len rest = rest.length + 1
      unfold utf16Units
      rw [if_pos (by omega), hrest.1]
      omega
    · show utf8EncodeCharBytes c ++ strUtf8 rest = c.toNat :: rest.map Char.toNat
      rw [hbytes, hrest.2.1]
      rfl
    · show bufWrite (c :: rest) (rest.length + 1) = c.toNat :: rest.map Char.toNat
      unfold bufWrite
      rw [hbytes]
      rw [if_pos (by simp)]
      have harg : rest.length + 1 - [c.toNat].length = rest.length := by simp
      rw [harg, hrest.2.2]
      rfl

theorem frameWellFormed_sendMessage_ascii (s : List Char)
    (h : allAsciiB s = true) (hlen : s.length < 4294967296) :
    frameWellFormed (sendMessageBytes s) := by
  obtain ⟨h1, _, h3⟩ := bufWrite_ascii s h
  have he : sendMessageBytes s = le32 s.length ++ s.map Char.toNat := by
    unfold sendMessageBytes
    rw [h1, h3]
  constructor
  · rw [he, List.length_append]
    simp [le32]
  · rw [he, readLE32_le32 s.length _ hlen, List.length_append]
    simp [le32]

theorem hexDigit_lt128 (m : Nat) (h : m < 16) : (hexDigit m).toNat < 128 := by
  interval_cases m <;> decide

theorem jsonEscapeChar_ascii (c : Char) (h : c.toNat < 128) :
    ∀ d ∈ jsonEscapeChar c, d.toNat < 128 := by
  intro d hd
  unfold jsonEscapeChar at hd
  split_ifs at hd with h1 h2 h3 h4 h5 h6 h7 h8
  · exact (by decide : ∀ x ∈ ['\\', '"'], x.toNat < 128) d hd
  · exact (by decide : ∀ x ∈ ['\\', '\\'], x.toNat < 128) d hd
  · simp only [List.mem_cons, List.not_mem_nil, or_false] at hd
    subst hd
    exact h
  · exact (by decide : ∀ x ∈ ['\\', 'b'], x.toNat < 128) d hd
  · exact (by decide : ∀ x ∈ ['\\', 't'], x.toNat < 128) d hd
  · exact (by decide : ∀ x ∈ ['\\', 'n'], x.toNat < 128) d hd
  · exact (by decide : ∀ x ∈ ['\\', 'f'], x.toNat < 128) d hd
  · exact (by decide : ∀ x ∈ ['\\', 'r'], x.toNat < 128) d hd
  · simp only [List.mem_cons, List.not_mem_nil, or_false] at hd
    rcases hd with rfl | rfl | rfl | rfl | rfl | rfl
    · decide
    · decide
    · decide
    · decide
    · exact hexDigit_lt128 _ (by omega)
    · exact hexDigit_lt128 _ (by omega)

theorem allAsciiB_errorReplyJsonStr (text : List Char) (h : allAsciiB text = true) :
    allAsciiB (errorReplyJsonStr text) = true := by
  rw [allAsciiB_iff] at h ⊢
  intro d hd
  unfold errorReplyJsonStr jsonStringChars at hd
  rcases List.mem_append.mp hd with hd | hd
  · rcases List.mem_append.mp hd with hd | hd
    · exact (by decide :
        ∀ x ∈ "\x7b\"type\":\"error\",\"error\":".toList, x.toNat < 128) d hd
    · rcases List.mem_cons.mp hd with rfl | hd
      · decide
      · rcases List.mem_append.mp hd with hd | hd
        · obtain ⟨l, hl, hdl⟩ := List.mem_flatten.mp hd
          obtain ⟨cc, hcc, rfl⟩ := List.mem_map.mp hl
          exact jsonEscapeChar_ascii cc (h cc hcc) d hdl
        · exact (by decide : ∀ x ∈ ['"'], x.toNat < 128) d hd
  · exact (by decide : ∀ x ∈ "\x7d".toList, x.toNat < 128) d hd

/-- C8: for every inbound message and every forward outcome the native
host emits exactly one reply; on a failed forward it synthesizes a single
error reply whose wording is the kind-specific text (three pairwise
distinct fixed texts for `connect`, `activity_batch` and `heartbeat`, and
the transport error's own message for every other kind); and the
serialized error reply, being ASCII, is emitted as a well-formed frame
whose length prefix equals the byte length of the payload. -/
theorem c8_error_reply_per_kind
    (mt : Option String) (fwd : Except String String) (e : String) :
    (hostHandleMessage mt fwd).length = 1 ∧
    hostHandleMessage mt (.error e) = [.errorReply (hostErrorText mt e)] ∧
    (hostErrorText (some "connect") e ≠ hostErrorText (some "activity_batch") e ∧
     hostErrorText (some "connect") e ≠ hostErrorText (some "heartbeat") e ∧
     hostErrorText (some "activity_batch") e ≠ hostErrorText (some "heartbeat") e) ∧
    hostErrorText (some "unknown_kind") e = e ∧
    hostErrorText none e = e ∧
    (∀ text : List Char, allAsciiB text = true →
      (errorReplyJsonStr text).length < 4294967296 →
      frameWellFormed (sendMessageBytes (errorReplyJsonStr text))) := by
  have ha : hostErrorText (some "connect") e =
      "Desktop app not running. Please start the Focus App." := rfl
  have hb : hostErrorText (some "activity_batch") e =
      "Failed to process activity batch" := rfl
  have hc : hostErrorText (some "heartbeat") e =
      "Desktop app not responding" := rfl
  refine ⟨?_, rfl,
    ⟨by rw [ha, hb]; decide, by rw [ha, hc]; decide, by rw [hb, hc]; decide⟩,
    rfl, rfl, ?_⟩
  · cases fwd <;> rfl
  · intro text ht hlen
    exact frameWellFormed_sendMessage_ascii (errorReplyJsonStr text)
      (allAsciiB_errorReplyJsonStr text ht) hlen

/-- Witness for C8: a failed `connect` forward yields exactly the fixed
connect error text, a failed forward of an unknown kind echoes the
transport error, and the serialized heartbeat error reply is emitted as a
well-formed frame. -/
theorem c8_error_reply_per_kind_witness :
    hostHandleMessage (some "connect") (.error "connect ECONNREFUSED") =
      [.errorReply "Desktop app not running. Please start the Focus App."] ∧
    hostHandleMessage (some "bogus") (.error "socket hang up") =
      [.errorReply "socket hang up"] ∧
    frameWellFormed (sendMessageBytes (errorReplyJsonStr
      "Desktop app not responding".toList)) := by
  have h1 := c8_error_reply_per_kind (some "connect")
    (.error "connect ECONNREFUSED") "connect ECONNREFUSED"
  have h2 := c8_error_reply_per_kind (some "bogus") (.error "socket hang up")
    "socket hang up"
  refine ⟨h1.2.1.trans (by decide), h2.2.1.trans (by decide), ?_⟩
  exact h1.2.2.2.2.2 "Desktop app not responding".toList (by decide) (by decide)

end TrackerDesktop
